import Mathlib

/-!
Shallow embedding of the fetch-with-lifecycle-and-cancellation core of the
repository:

* `ApiData` — the server-side service `ApiDataService`
  (src/api-data/api-data.service.ts): `fetchPostById` and `fetchAllPosts`
  dispatch over an injected axios-like client, wrapping every failure into an
  `HttpException` with status 502 (BAD_GATEWAY).
* `PostDisplay` — the client-side React component `PostDisplay`
  (src/components/PostDisplay.tsx): a state machine over the three `useState`
  cells `(post, loading, error)`, driven by mount / props-change / unmount
  events and by the asynchronous settlement of each fetch attempt. Each
  effect owns one `AbortController`; the effect cleanup aborts it, and an
  aborted fetch settles with an `AbortError` rejection.
-/

/-- The wire shape of a post: `{ userId, id, title, body }`
(src/api-data/interfaces/api-post.interface.ts and the `ApiPost` interface in
PostDisplay.tsx). -/
structure ApiPost where
  userId : Int
  id : Int
  title : String
  body : String
deriving DecidableEq, Repr

/-- A JavaScript value reaching a `catch (err: unknown)` clause: whether it is
an `Error` instance (`err instanceof Error`), and its `name` and `message`
properties (meaningful only when `isError = true`, matching how the code reads
them only behind the `instanceof` guard). -/
structure JsValue where
  isError : Bool
  name : String
  message : String
deriving DecidableEq, Repr

namespace ApiData

/-- `HttpException` from `@nestjs/common` as thrown by the service: a message
and a numeric HTTP status. -/
structure HttpException where
  message : String
  status : Nat
deriving DecidableEq, Repr

/-- `HttpStatus.BAD_GATEWAY` from `@nestjs/common`. -/
def HttpStatus_BAD_GATEWAY : Nat := 502

/-- Outcome of one `httpClient.get<T>(url)` call: axios resolves with a
response whose `data` field is the decoded body, or rejects with some value. -/
inductive AxiosResult (α : Type) where
  | resolved (data : α)
  | rejected (e : JsValue)
deriving DecidableEq, Repr

/-- The injected `AxiosInstance`: its generic `get` observed at the two types
the service uses it at (`get<ApiPost>` and `get<ApiPost[]>`). -/
structure AxiosInstance where
  getPost : String → AxiosResult ApiPost
  getPosts : String → AxiosResult (List ApiPost)

/-- `DEFAULT_API_BASE_URL` (api-data.service.ts line 22). -/
def DEFAULT_API_BASE_URL : String := "https://jsonplaceholder.typicode.com"

/-- The two private fields of `ApiDataService`. -/
structure ApiDataService where
  apiBaseUrl : String
  httpClient : AxiosInstance

/-- The zero-argument constructor (lines 56-59):
`apiBaseUrl = process.env["API_BASE_URL"] ?? DEFAULT_API_BASE_URL`, and
`httpClient = axios.create({timeout: 5000})` — the created axios instance is
abstracted as the parameter `created`. `env` is the value of
`process.env["API_BASE_URL"]`. -/
def constructService (env : Option String) (created : AxiosInstance) :
    ApiDataService :=
  { apiBaseUrl := env.getD DEFAULT_API_BASE_URL, httpClient := created }

/-- `ApiDataService.createWithClient(client, baseUrl?)` (lines 70-83):
`apiBaseUrl = baseUrl ?? process.env["API_BASE_URL"] ?? DEFAULT_API_BASE_URL`,
`httpClient = client`. -/
def createWithClient (client : AxiosInstance) (baseUrl : Option String)
    (env : Option String) : ApiDataService :=
  { apiBaseUrl := baseUrl.getD (env.getD DEFAULT_API_BASE_URL),
    httpClient := client }

/-- `fetchPostById` (lines 95-108): GET `{apiBaseUrl}/posts/{postId}`; on
resolution return `response.data`; on rejection throw
`HttpException("Failed to fetch post {postId}: {message}", BAD_GATEWAY)` where
`message` is `error.message` when `error instanceof Error`, else the fixed
string `"Unknown error fetching post"`. -/
def fetchPostById (svc : ApiDataService) (postId : Int) :
    Except HttpException ApiPost :=
  let url : String := svc.apiBaseUrl ++ "/posts/" ++ toString postId
  match svc.httpClient.getPost url with
  | .resolved data => .ok data
  | .rejected e =>
      let message : String :=
        if e.isError then e.message else "Unknown error fetching post"
      .error ⟨"Failed to fetch post " ++ toString postId ++ ": " ++ message,
        HttpStatus_BAD_GATEWAY⟩

/-- `fetchAllPosts` (lines 118-131): GET `{apiBaseUrl}/posts`; on rejection
throw `HttpException("Failed to fetch posts: {message}", BAD_GATEWAY)` with
fallback message `"Unknown error fetching posts"`. -/
def fetchAllPosts (svc : ApiDataService) :
    Except HttpException (List ApiPost) :=
  let url : String := svc.apiBaseUrl ++ "/posts"
  match svc.httpClient.getPosts url with
  | .resolved data => .ok data
  | .rejected e =>
      let message : String :=
        if e.isError then e.message else "Unknown error fetching posts"
      .error ⟨"Failed to fetch posts: " ++ message, HttpStatus_BAD_GATEWAY⟩

/-- A client whose generic `get` always rejects with `e` (the shape of the
mocked axios instance in test/api-data.service.spec.ts). -/
def rejectingClient (e : JsValue) : AxiosInstance :=
  ⟨fun _ => .rejected e, fun _ => .rejected e⟩

/-- A client whose generic `get` always resolves (with `p` at `ApiPost`, with
`l` at `ApiPost[]`). -/
def resolvingClient (p : ApiPost) (l : List ApiPost) : AxiosInstance :=
  ⟨fun _ => .resolved p, fun _ => .resolved l⟩

/-- The sample record used by the repository's tests. -/
def samplePost : ApiPost :=
  ⟨1, 1, "Test Post Title", "Test post body content"⟩

end ApiData

namespace PostDisplay

/-- Decidable equality for `Except`, needed to derive it for
`TransportResult`. -/
def exceptDecEq {ε α : Type} [DecidableEq ε] [DecidableEq α] :
    DecidableEq (Except ε α)
  | .error e, .error f =>
      if h : e = f then isTrue (by rw [h])
      else isFalse (by intro hc; cases hc; exact h rfl)
  | .error _, .ok _ => isFalse (by intro hc; cases hc)
  | .ok _, .error _ => isFalse (by intro hc; cases hc)
  | .ok a, .ok b =>
      if h : a = b then isTrue (by rw [h])
      else isFalse (by intro hc; cases hc; exact h rfl)

instance {ε α : Type} [DecidableEq ε] [DecidableEq α] :
    DecidableEq (Except ε α) := exceptDecEq

/-- The settlement of one `fetch` attempt as the `fetchPost` body observes it:
either the response resolved (with `ok`, `status`, `statusText`, and the
outcome of `response.json()` — parsed data or a rejection), or the fetch
promise itself rejected. -/
inductive TransportResult where
  | response (ok : Bool) (status : Nat) (statusText : String)
      (body : Except JsValue ApiPost)
  | rejected (e : JsValue)
deriving DecidableEq, Repr

/-- The rejection `fetch` delivers when its `AbortController` is aborted
before settlement: a DOMException named `AbortError`. -/
def abortRejection : JsValue :=
  ⟨true, "AbortError", "The operation was aborted."⟩

/-- The component's React state: the three `useState` cells
`(post, loading, error)` plus whether the component is still mounted
(React ignores state updates on an unmounted component). -/
structure CompState where
  post : Option ApiPost
  loading : Bool
  error : Option String
  mounted : Bool
deriving DecidableEq, Repr

/-- Initial `useState` values (lines 51-53): `post = null`, `loading = true`,
`error = null`. -/
def initComp : CompState := ⟨none, true, none, true⟩

/-- `setPost`: a state update, a no-op once the component is unmounted. -/
def setPost (v : Option ApiPost) (s : CompState) : CompState :=
  if s.mounted then { s with post := v } else s

/-- `setLoading`: a state update, a no-op once the component is unmounted. -/
def setLoading (v : Bool) (s : CompState) : CompState :=
  if s.mounted then { s with loading := v } else s

/-- `setError`: a state update, a no-op once the component is unmounted. -/
def setError (v : Option String) (s : CompState) : CompState :=
  if s.mounted then { s with error := v } else s

/-- The `catch` clause of `fetchPost` (lines 69-72):
`if (err instanceof Error && err.name !== 'AbortError') setError(err.message)`
— any other thrown value is ignored. -/
def catchClause (e : JsValue) (s : CompState) : CompState :=
  if e.isError && e.name != "AbortError" then setError (some e.message) s
  else s

/-- The remainder of `fetchPost` after `await fetch` settles (lines 63-75):
on a non-ok response throw `Error("HTTP {status}: {statusText}")` into the
catch; on an ok response await `response.json()` and `setPost(data)` (a json
rejection also lands in the catch); on a fetch rejection run the catch; in
every case the `finally` block runs `setLoading(false)`. -/
def handleSettle (r : TransportResult) (s : CompState) : CompState :=
  let s1 : CompState :=
    match r with
    | .response ok status statusText body =>
        if ok then
          match body with
          | .ok data => setPost (some data) s
          | .error e => catchClause e s
        else
          catchClause
            ⟨true, "Error", "HTTP " ++ toString status ++ ": " ++ statusText⟩ s
    | .rejected e => catchClause e s
  setLoading false s1

/-- One fetch attempt: the URL it was issued against, whether its
`AbortController` has been aborted, and whether its settlement has already
been processed. -/
structure Attempt where
  url : String
  aborted : Bool
  settled : Bool
deriving DecidableEq, Repr

/-- The component instance together with every attempt its effects have
issued (attempt `k` belongs to the `k`-th effect run). -/
structure Sys where
  comp : CompState
  attempts : List Attempt
deriving DecidableEq, Repr

/-- The request URL `{apiBaseUrl}/posts/{postId}` (line 56). -/
def requestUrl (apiBaseUrl : String) (postId : Int) : String :=
  apiBaseUrl ++ "/posts/" ++ toString postId

/-- One effect run (lines 55-78): synchronously `setLoading(true)`,
`setError(null)`, then issue the fetch — recorded as a fresh attempt with a
fresh (unaborted) controller. -/
def startAttempt (apiBaseUrl : String) (postId : Int) (sys : Sys) : Sys :=
  { comp := setError none (setLoading true sys.comp),
    attempts := sys.attempts ++ [⟨requestUrl apiBaseUrl postId, false, false⟩] }

/-- Abort the controller of the most recent effect (the cleanup
`controller.abort()` on line 79 closes over its own effect's controller,
which is always the newest attempt when the cleanup runs). -/
def markLastAborted : List Attempt → List Attempt
  | [] => []
  | [a] => [{ a with aborted := true }]
  | a :: b :: rest => a :: markLastAborted (b :: rest)

/-- Run the pending effect cleanup: abort the newest attempt. -/
def abortLatest (sys : Sys) : Sys :=
  { sys with attempts := markLastAborted sys.attempts }

/-- Default prop values (lines 47-50): `apiBaseUrl` defaults to
`http://localhost:3000/api` and `postId` to `1`. -/
def defaultApiBaseUrl : String := "http://localhost:3000/api"

/-- Mounting `<PostDisplay apiBaseUrl? postId?>`: initial state, then the
first effect run with the resolved props. -/
def mount (apiBaseUrl : Option String) (postId : Option Int) : Sys :=
  startAttempt (apiBaseUrl.getD defaultApiBaseUrl) (postId.getD 1)
    ⟨initComp, []⟩

/-- Events after mount: a change of the `[apiBaseUrl, postId]` dependencies
(cleanup of the previous effect, then a new effect run), unmount (cleanup,
then state updates become no-ops), or the asynchronous settlement of attempt
`k` with raw transport result `raw` (delivered as an `AbortError` rejection
instead when the attempt's controller was aborted first). -/
inductive Event where
  | changeProps (apiBaseUrl : String) (postId : Int)
  | unmount
  | settle (k : Nat) (raw : TransportResult)
deriving DecidableEq, Repr

/-- Mark attempt `k` as settled. -/
def setSettled (k : Nat) (l : List Attempt) : List Attempt :=
  match l[k]? with
  | none => l
  | some a => l.set k { a with settled := true }

/-- Small-step semantics of one event. A settlement of an unknown or
already-settled attempt is a no-op; an aborted attempt's settlement is
delivered as the `AbortError` rejection. -/
def step (sys : Sys) : Event → Sys
  | .changeProps b p => startAttempt b p (abortLatest sys)
  | .unmount =>
      let s := abortLatest sys
      { s with comp := { s.comp with mounted := false } }
  | .settle k raw =>
      match sys.attempts[k]? with
      | none => sys
      | some a =>
          if a.settled then sys
          else
            let delivered : TransportResult :=
              if a.aborted then .rejected abortRejection else raw
            { comp := handleSettle delivered sys.comp,
              attempts := setSettled k sys.attempts }

/-- A complete run: mount with the given props, then process events. -/
def run (apiBaseUrl : Option String) (postId : Option Int)
    (events : List Event) : Sys :=
  events.foldl step (mount apiBaseUrl postId)

/-- What the component renders, lines 82-99. -/
inductive View where
  | loadingView
  | errorView (msg : String)
  | emptyView
  | postView (title body : String)
deriving DecidableEq, Repr

/-- JavaScript truthiness of the `error` cell (`if (error)`): `null` and the
empty string are falsy. -/
def truthyError : Option String → Bool
  | none => false
  | some s => !(s == "")

/-- The render function (lines 82-99): loading marker, else error marker,
else `no-data` marker when `post` is null, else title and body. -/
def render (s : CompState) : View :=
  if s.loading then .loadingView
  else if truthyError s.error then .errorView (s.error.getD "")
  else
    match s.post with
    | none => .emptyView
    | some p => .postView p.title p.body

/-- The `post` cell an attempt's settlement writes when it is the live
attempt of a freshly (re)started lifecycle: the `post` component of
`handleSettle` on the initial state. -/
def outcomePost (r : TransportResult) : Option ApiPost :=
  (handleSettle r initComp).post

/-- The `error` cell an attempt's settlement writes when it is the live
attempt of a freshly (re)started lifecycle: the `error` component of
`handleSettle` on the initial state. -/
def outcomeError (r : TransportResult) : Option String :=
  (handleSettle r initComp).error

/-- The raw result of the first settlement event addressed to attempt `k` in
a list of settlement events (later settlements of `k` are no-ops). -/
def firstSettleOf (k : Nat) : List (Nat × TransportResult) → Option TransportResult
  | [] => none
  | (j, r) :: rest => if j = k then some r else firstSettleOf k rest

/-- All attempts before index `n` have been aborted. -/
def staleAborted (sys : Sys) (n : Nat) : Prop :=
  ∀ (i : Nat) (a : Attempt), i < n → sys.attempts[i]? = some a → a.aborted = true

/-- Invariant after the mount and a chain of props changes, before any
settlement: the component state is still the initial one, there are `n + 1`
attempts, none settled, all but the newest aborted, and the newest attempt is
unaborted with URL `u`. -/
def ChainInv (sys : Sys) (n : Nat) (u : String) : Prop :=
  sys.comp = initComp ∧
  sys.attempts.length = n + 1 ∧
  (∀ (i : Nat) (a : Attempt), sys.attempts[i]? = some a → a.settled = false) ∧
  staleAborted sys n ∧
  ∃ a, sys.attempts[n]? = some a ∧ a.aborted = false ∧ a.url = u

/-- Invariant during the settlement phase while the live attempt `n` is
still pending: `post` and `error` are untouched, the component is mounted,
all stale attempts are aborted, and attempt `n` is unaborted and unsettled. -/
def RacePending (sys : Sys) (n : Nat) : Prop :=
  sys.comp.mounted = true ∧ sys.comp.post = none ∧ sys.comp.error = none ∧
  sys.attempts.length = n + 1 ∧
  staleAborted sys n ∧
  ∃ a, sys.attempts[n]? = some a ∧ a.aborted = false ∧ a.settled = false

/-- Invariant during the settlement phase once the live attempt `n` has
settled: the component is mounted, all stale attempts are aborted, and
attempt `n` is marked settled (so further settlements of it are no-ops). -/
def RaceDone (sys : Sys) (n : Nat) : Prop :=
  sys.comp.mounted = true ∧
  sys.attempts.length = n + 1 ∧
  staleAborted sys n ∧
  ∃ a, sys.attempts[n]? = some a ∧ a.settled = true

/-- The most recent request identity after a mount at `(b, p)` followed by a
chain of props changes `cs`. -/
def lastIdentity (b : String) (p : Int) (cs : List (String × Int)) :
    String × Int :=
  (cs.getLast?).getD (b, p)

/-- Witness system for the cancellation lemma: a mount at
`("http://test.api", 1)` followed by a props change to
`("http://test.api", 2)`, leaving attempt 0 aborted and pending. -/
def cancelledSys : Sys :=
  run (some "http://test.api") (some 1) [Event.changeProps "http://test.api" 2]

/-- Witness raw result: a successful 200 response carrying the sample post —
delivered to an aborted attempt it must still be dropped. -/
def staleSuccess : TransportResult :=
  TransportResult.response true 200 "OK"
    (Except.ok ⟨1, 1, "Test Post Title", "Test post body content"⟩)

end PostDisplay

/-!
Theorems for the claims, in order of the service-side claims first, then the
component-side claims.
-/

/-- C10: with both props omitted, `PostDisplay` defaults `apiBaseUrl` to
`http://localhost:3000/api` and `postId` to `1`, and the mount issues its
single fetch attempt against exactly `http://localhost:3000/api/posts/1`. -/
theorem c10_default_props_url :
    PostDisplay.defaultApiBaseUrl = "http://localhost:3000/api" ∧
    (PostDisplay.mount none none).attempts =
      [⟨"http://localhost:3000/api/posts/1", false, false⟩] := by
  constructor
  · rfl
  · rfl

/-- C3: whenever the client's `get` on the post URL rejects with an `Error`
instance, `fetchPostById` fails with the message
`Failed to fetch post {id}: {error.message}` (at status `BAD_GATEWAY`). -/
theorem c3_upstream_message (svc : ApiData.ApiDataService) (postId : Int)
    (e : JsValue)
    (hrej : svc.httpClient.getPost (svc.apiBaseUrl ++ "/posts/" ++ toString postId)
      = .rejected e)
    (herr : e.isError = true) :
    ApiData.fetchPostById svc postId =
      .error ⟨"Failed to fetch post " ++ toString postId ++ ": " ++ e.message,
        ApiData.HttpStatus_BAD_GATEWAY⟩ := by
  simp [ApiData.fetchPostById, hrej, herr]

/-- C3 witness: `fetchPostById 999` against a transport rejecting with
`Error("Network Error")` fails with exactly
`Failed to fetch post 999: Network Error`. -/
theorem c3_upstream_message_witness :
    ApiData.fetchPostById
      (ApiData.createWithClient
        (ApiData.rejectingClient ⟨true, "Error", "Network Error"⟩) none none)
      999 =
    .error ⟨"Failed to fetch post 999: Network Error",
      ApiData.HttpStatus_BAD_GATEWAY⟩ := by
  have h := c3_upstream_message
    (ApiData.createWithClient
      (ApiData.rejectingClient ⟨true, "Error", "Network Error"⟩) none none)
    999 ⟨true, "Error", "Network Error"⟩ rfl rfl
  rw [h]
  decide

/-- C6: whenever the client's `get` on the post URL resolves with decoded
body `p`, `fetchPostById` returns exactly `p`, field-for-field. -/
theorem c6_pass_through (svc : ApiData.ApiDataService) (postId : Int)
    (p : ApiPost)
    (hres : svc.httpClient.getPost (svc.apiBaseUrl ++ "/posts/" ++ toString postId)
      = .resolved p) :
    ApiData.fetchPostById svc postId = .ok p := by
  simp [ApiData.fetchPostById, hres]

/-- C6 witness: with the transport resolving
`{userId: 1, id: 1, title: "Test Post Title", body: "Test post body content"}`,
`fetchPostById 1` returns exactly that record. -/
theorem c6_pass_through_witness :
    ApiData.fetchPostById
      (ApiData.createWithClient
        (ApiData.resolvingClient ApiData.samplePost []) none none) 1 =
    .ok ⟨1, 1, "Test Post Title", "Test post body content"⟩ := by
  have h := c6_pass_through
    (ApiData.createWithClient
      (ApiData.resolvingClient ApiData.samplePost []) none none)
    1 ApiData.samplePost rfl
  rw [h]
  rfl

/-- C7: an `ApiDataService` built by the plain constructor with client `t`
and one built by `createWithClient t` agree on `fetchPostById` (at every id)
and on `fetchAllPosts` whenever their resolved base URLs agree: two
construction paths, one dispatch behavior. -/
theorem c7_construction_equiv (t : ApiData.AxiosInstance)
    (env baseUrl : Option String)
    (h : (ApiData.createWithClient t baseUrl env).apiBaseUrl =
      (ApiData.constructService env t).apiBaseUrl) :
    (∀ postId : Int,
      ApiData.fetchPostById (ApiData.createWithClient t baseUrl env) postId =
        ApiData.fetchPostById (ApiData.constructService env t) postId) ∧
    ApiData.fetchAllPosts (ApiData.createWithClient t baseUrl env) =
      ApiData.fetchAllPosts (ApiData.constructService env t) := by
  have h2 : baseUrl.getD (env.getD ApiData.DEFAULT_API_BASE_URL) =
      env.getD ApiData.DEFAULT_API_BASE_URL := h
  have hs : ApiData.createWithClient t baseUrl env =
      ApiData.constructService env t :=
    congrArg (fun a => ApiData.ApiDataService.mk a t) h2
  exact ⟨fun postId => by rw [hs], by rw [hs]⟩

/-- C7 witness: with no explicit base URL and no environment override, the
two construction paths resolve the same base URL and agree at id 1. -/
theorem c7_construction_equiv_witness :
    ApiData.fetchPostById
      (ApiData.createWithClient
        (ApiData.resolvingClient ApiData.samplePost []) none none) 1 =
    ApiData.fetchPostById
      (ApiData.constructService none
        (ApiData.resolvingClient ApiData.samplePost [])) 1 :=
  (c7_construction_equiv (ApiData.resolvingClient ApiData.samplePost [])
    none none rfl).1 1

/-- C8: every failure of `fetchPostById` or `fetchAllPosts` is an
`HttpException` (structurally, the only error type of the embedding) whose
status is `HttpStatus.BAD_GATEWAY` (502), whatever the underlying cause. -/
theorem c8_all_failures_bad_gateway (svc : ApiData.ApiDataService)
    (postId : Int) :
    (∀ e : ApiData.HttpException,
      ApiData.fetchPostById svc postId = .error e →
        e.status = ApiData.HttpStatus_BAD_GATEWAY) ∧
    (∀ f : ApiData.HttpException,
      ApiData.fetchAllPosts svc = .error f →
        f.status = ApiData.HttpStatus_BAD_GATEWAY) := by
  constructor
  · intro e
    simp only [ApiData.fetchPostById]
    cases hg : svc.httpClient.getPost (svc.apiBaseUrl ++ "/posts/" ++ toString postId) with
    | resolved d =>
        simp only [hg]
        intro h
        exact Except.noConfusion h
    | rejected je =>
        simp only [hg]
        intro h
        injection h with h2
        rw [← h2]
  · intro f
    simp only [ApiData.fetchAllPosts]
    cases hg : svc.httpClient.getPosts (svc.apiBaseUrl ++ "/posts") with
    | resolved d =>
        simp only [hg]
        intro h
        exact Except.noConfusion h
    | rejected je =>
        simp only [hg]
        intro h
        injection h with h2
        rw [← h2]

/-- C8 witness: against a transport rejecting with a non-Error value, both
methods fail, and the statuses are 502. -/
theorem c8_all_failures_bad_gateway_witness :
    (ApiData.HttpException.mk
        ("Failed to fetch post " ++ toString (7 : Int) ++ ": " ++
          "Unknown error fetching post") ApiData.HttpStatus_BAD_GATEWAY).status =
      ApiData.HttpStatus_BAD_GATEWAY := by
  have h := (c8_all_failures_bad_gateway
    (ApiData.createWithClient (ApiData.rejectingClient ⟨false, "", ""⟩) none none)
    7).1
    ⟨"Failed to fetch post " ++ toString (7 : Int) ++ ": " ++
      "Unknown error fetching post", ApiData.HttpStatus_BAD_GATEWAY⟩
    (by rfl)
  exact h

/-- C9: a non-`Error` rejection (no `message` to read) is substituted by the
fixed causes `Unknown error fetching post` (for `fetchPostById`) and
`Unknown error fetching posts` (for `fetchAllPosts`) inside the wrapped
failure messages. -/
theorem c9_unknown_error_fallback (svc : ApiData.ApiDataService)
    (postId : Int) (e : JsValue) (hne : e.isError = false)
    (h1 : svc.httpClient.getPost (svc.apiBaseUrl ++ "/posts/" ++ toString postId)
      = .rejected e)
    (h2 : svc.httpClient.getPosts (svc.apiBaseUrl ++ "/posts") = .rejected e) :
    ApiData.fetchPostById svc postId =
      .error ⟨"Failed to fetch post " ++ toString postId ++ ": " ++
        "Unknown error fetching post", ApiData.HttpStatus_BAD_GATEWAY⟩ ∧
    ApiData.fetchAllPosts svc =
      .error ⟨"Failed to fetch posts: " ++ "Unknown error fetching posts",
        ApiData.HttpStatus_BAD_GATEWAY⟩ := by
  constructor
  · simp [ApiData.fetchPostById, h1, hne]
  · simp [ApiData.fetchAllPosts, h2, hne]

/-- C9 witness: a transport rejecting with a non-Error value at id 5 yields
the two fixed fallback causes verbatim. -/
theorem c9_unknown_error_fallback_witness :
    ApiData.fetchPostById
      (ApiData.createWithClient (ApiData.rejectingClient ⟨false, "x", "y"⟩) none none)
      5 =
      .error ⟨"Failed to fetch post 5: Unknown error fetching post",
        ApiData.HttpStatus_BAD_GATEWAY⟩ ∧
    ApiData.fetchAllPosts
      (ApiData.createWithClient (ApiData.rejectingClient ⟨false, "x", "y"⟩) none none) =
      .error ⟨"Failed to fetch posts: Unknown error fetching posts",
        ApiData.HttpStatus_BAD_GATEWAY⟩ := by
  have h := c9_unknown_error_fallback
    (ApiData.createWithClient (ApiData.rejectingClient ⟨false, "x", "y"⟩) none none)
    5 ⟨false, "x", "y"⟩ rfl rfl rfl
  exact h

/-- Helper: the message `HTTP {status}: {statusText}` is never the empty
string. -/
theorem http_message_ne_empty (a b : String) :
    ("HTTP " ++ a ++ ": " ++ b) ≠ "" := by
  intro h
  have hlen := congrArg String.length h
  simp only [String.length_append] at hlen
  have h1 : ("HTTP " : String).length = 5 := by decide
  have h2 : (": " : String).length = 2 := by decide
  have h3 : ("" : String).length = 0 := by decide
  rw [h1, h2, h3] at hlen
  omega

/-- Helper: the message `HTTP {status}: {statusText}` is truthy as the
`error` cell. -/
theorem truthy_http_message (a b : String) :
    PostDisplay.truthyError (some ("HTTP " ++ a ++ ": " ++ b)) = true := by
  simp only [PostDisplay.truthyError]
  simp [http_message_ne_empty a b]

/-- Helper: a run consisting of a mount followed by the settlement of the
single attempt ends with `handleSettle` applied to the initial state, and
the attempt marked settled. -/
theorem run_single_settle (b : String) (p : Int)
    (r : PostDisplay.TransportResult) :
    PostDisplay.run (some b) (some p) [PostDisplay.Event.settle 0 r] =
      { comp := PostDisplay.handleSettle r PostDisplay.initComp,
        attempts := [⟨PostDisplay.requestUrl b p, false, true⟩] } := by
  simp [PostDisplay.run, PostDisplay.mount, PostDisplay.startAttempt,
    PostDisplay.step, PostDisplay.setSettled, PostDisplay.setError,
    PostDisplay.setLoading, PostDisplay.initComp, List.getElem?_cons_zero]

/-- C5: a settled response with `ok = false` drives the component into the
error state with message exactly `HTTP {status}: {statusText}`, rendered as
`Error: HTTP {status}: {statusText}`. -/
theorem c5_http_error_state (b : String) (p : Int) (status : Nat)
    (statusText : String) (body : Except JsValue ApiPost) :
    (PostDisplay.run (some b) (some p)
        [PostDisplay.Event.settle 0
          (PostDisplay.TransportResult.response false status statusText body)]).comp.error
      = some ("HTTP " ++ toString status ++ ": " ++ statusText) ∧
    PostDisplay.render (PostDisplay.run (some b) (some p)
        [PostDisplay.Event.settle 0
          (PostDisplay.TransportResult.response false status statusText body)]).comp
      = PostDisplay.View.errorView ("HTTP " ++ toString status ++ ": " ++ statusText) := by
  rw [run_single_settle]
  have hb : ((("Error" : String) != "AbortError")) = true := by decide
  constructor
  · simp [PostDisplay.handleSettle, PostDisplay.catchClause, hb,
      PostDisplay.setError, PostDisplay.setLoading, PostDisplay.initComp]
  · simp [PostDisplay.handleSettle, PostDisplay.catchClause, hb,
      PostDisplay.setError, PostDisplay.setLoading, PostDisplay.initComp,
      PostDisplay.render, truthy_http_message]

/-- C4 counterexample: a transport failure that is not an `Error` instance
(and is not the cancellation signal) is silently dropped: the component does
NOT transition to the error state and no fallback string appears — it renders
the `no-data` marker instead. -/
theorem c4_counterexample :
    (PostDisplay.run (some "http://test.api") (some 1)
        [PostDisplay.Event.settle 0
          (PostDisplay.TransportResult.rejected ⟨false, "", ""⟩)]).comp.error = none ∧
    PostDisplay.render (PostDisplay.run (some "http://test.api") (some 1)
        [PostDisplay.Event.settle 0
          (PostDisplay.TransportResult.rejected ⟨false, "", ""⟩)]).comp =
      PostDisplay.View.emptyView := by decide

/-- C4 amended: a transport rejection drives the component into the error
state with the failure's message exactly when the rejected value is an
`Error` instance whose name is not `AbortError`; any other rejection
(a non-`Error` value, or an `Error` named `AbortError` even without
cancellation) produces no error transition at all — there is no fallback
string — and only clears the loading flag. -/
theorem c4_amended_rejection (b : String) (p : Int) (e : JsValue) :
    ((PostDisplay.run (some b) (some p)
        [PostDisplay.Event.settle 0 (PostDisplay.TransportResult.rejected e)]).comp.error
      = if e.isError && e.name != "AbortError" then some e.message else none) ∧
    (PostDisplay.run (some b) (some p)
        [PostDisplay.Event.settle 0 (PostDisplay.TransportResult.rejected e)]).comp.post
      = none ∧
    (PostDisplay.run (some b) (some p)
        [PostDisplay.Event.settle 0 (PostDisplay.TransportResult.rejected e)]).comp.loading
      = false := by
  rw [run_single_settle]
  by_cases hc : (e.isError && e.name != "AbortError") = true
  · simp [PostDisplay.handleSettle, PostDisplay.catchClause, hc,
      PostDisplay.setError, PostDisplay.setLoading, PostDisplay.initComp]
  · simp only [Bool.not_eq_true] at hc
    simp [PostDisplay.handleSettle, PostDisplay.catchClause, hc,
      PostDisplay.setError, PostDisplay.setLoading, PostDisplay.initComp]

/-- C1 counterexample: mount at `("http://test.api", 1)`, change the identity
to `("http://test.api", 2)` before the first attempt settles (cancelling it),
then let the cancelled attempt's fetch reject. At cancellation time
`loading = true` (the view shows the loading marker); the later rejection of
the cancelled attempt mutates `loading` to `false` via the `finally` block,
and the rendered view changes to the `no-data` marker — a state mutation and
a visible transition, contradicting the claim. -/
theorem c1_counterexample :
    PostDisplay.cancelledSys.comp.loading = true ∧
    PostDisplay.render PostDisplay.cancelledSys.comp = PostDisplay.View.loadingView ∧
    (PostDisplay.step PostDisplay.cancelledSys
        (PostDisplay.Event.settle 0
          (PostDisplay.TransportResult.rejected PostDisplay.abortRejection))).comp.loading
      = false ∧
    PostDisplay.render (PostDisplay.step PostDisplay.cancelledSys
        (PostDisplay.Event.settle 0
          (PostDisplay.TransportResult.rejected PostDisplay.abortRejection))).comp =
      PostDisplay.View.emptyView := by decide

/-- C1 amended: when a cancelled (aborted) pending attempt later settles —
with any raw result — the `post` and `error` cells and the mounted flag are
left exactly as they were; the only state mutation is the `finally` block
setting `loading` to `false` (and even that is a no-op if the component is
already unmounted). -/
theorem c1_amended_cancellation (sys : PostDisplay.Sys) (k : Nat)
    (raw : PostDisplay.TransportResult) (a : PostDisplay.Attempt)
    (hk : sys.attempts[k]? = some a) (hab : a.aborted = true)
    (hst : a.settled = false) :
    (PostDisplay.step sys (PostDisplay.Event.settle k raw)).comp.post = sys.comp.post ∧
    (PostDisplay.step sys (PostDisplay.Event.settle k raw)).comp.error = sys.comp.error ∧
    (PostDisplay.step sys (PostDisplay.Event.settle k raw)).comp.loading =
      (if sys.comp.mounted then false else sys.comp.loading) ∧
    (PostDisplay.step sys (PostDisplay.Event.settle k raw)).comp.mounted = sys.comp.mounted := by
  simp only [PostDisplay.step, hk, hst]
  cases hm : sys.comp.mounted <;>
    simp [PostDisplay.handleSettle, PostDisplay.catchClause, PostDisplay.abortRejection,
      PostDisplay.setLoading, PostDisplay.setError, hm, hab]

/-- C1 amended witness: the cancelled attempt 0 of `cancelledSys` settling
with a fully successful response still leaves `post`, `error` and the mounted
flag untouched and only clears `loading`. -/
theorem c1_amended_cancellation_witness :
    (PostDisplay.step PostDisplay.cancelledSys
        (PostDisplay.Event.settle 0 PostDisplay.staleSuccess)).comp.post =
      PostDisplay.cancelledSys.comp.post ∧
    (PostDisplay.step PostDisplay.cancelledSys
        (PostDisplay.Event.settle 0 PostDisplay.staleSuccess)).comp.error =
      PostDisplay.cancelledSys.comp.error ∧
    (PostDisplay.step PostDisplay.cancelledSys
        (PostDisplay.Event.settle 0 PostDisplay.staleSuccess)).comp.loading =
      (if PostDisplay.cancelledSys.comp.mounted then false
        else PostDisplay.cancelledSys.comp.loading) ∧
    (PostDisplay.step PostDisplay.cancelledSys
        (PostDisplay.Event.settle 0 PostDisplay.staleSuccess)).comp.mounted =
      PostDisplay.cancelledSys.comp.mounted :=
  c1_amended_cancellation PostDisplay.cancelledSys 0 PostDisplay.staleSuccess
    ⟨"http://test.api/posts/1", true, false⟩ (by decide) (by decide) (by decide)

/-!
Helper lemmas for the supersession-race claims: unfolding equations for
`handleSettle`, projection lemmas for the state setters, and bookkeeping for
the attempt list.
-/

theorem handleSettle_response_false (status : Nat) (statusText : String)
    (body : Except JsValue ApiPost) (s : PostDisplay.CompState) :
    PostDisplay.handleSettle (.response false status statusText body) s =
      PostDisplay.setLoading false
        (PostDisplay.catchClause
          ⟨true, "Error", "HTTP " ++ toString status ++ ": " ++ statusText⟩ s) := rfl

theorem handleSettle_response_true_ok (status : Nat) (statusText : String)
    (d : ApiPost) (s : PostDisplay.CompState) :
    PostDisplay.handleSettle (.response true status statusText (.ok d)) s =
      PostDisplay.setLoading false (PostDisplay.setPost (some d) s) := rfl

theorem handleSettle_response_true_err (status : Nat) (statusText : String)
    (e : JsValue) (s : PostDisplay.CompState) :
    PostDisplay.handleSettle (.response true status statusText (.error e)) s =
      PostDisplay.setLoading false (PostDisplay.catchClause e s) := rfl

theorem handleSettle_rejected (e : JsValue) (s : PostDisplay.CompState) :
    PostDisplay.handleSettle (.rejected e) s =
      PostDisplay.setLoading false (PostDisplay.catchClause e s) := rfl

theorem setLoading_post (v : Bool) (s : PostDisplay.CompState) :
    (PostDisplay.setLoading v s).post = s.post := by
  unfold PostDisplay.setLoading; split <;> rfl

theorem setLoading_error (v : Bool) (s : PostDisplay.CompState) :
    (PostDisplay.setLoading v s).error = s.error := by
  unfold PostDisplay.setLoading; split <;> rfl

theorem setLoading_mounted (v : Bool) (s : PostDisplay.CompState) :
    (PostDisplay.setLoading v s).mounted = s.mounted := by
  unfold PostDisplay.setLoading; split <;> rfl

theorem setError_post (v : Option String) (s : PostDisplay.CompState) :
    (PostDisplay.setError v s).post = s.post := by
  unfold PostDisplay.setError; split <;> rfl

theorem setError_mounted (v : Option String) (s : PostDisplay.CompState) :
    (PostDisplay.setError v s).mounted = s.mounted := by
  unfold PostDisplay.setError; split <;> rfl

theorem setPost_error (v : Option ApiPost) (s : PostDisplay.CompState) :
    (PostDisplay.setPost v s).error = s.error := by
  unfold PostDisplay.setPost; split <;> rfl

theorem setPost_mounted (v : Option ApiPost) (s : PostDisplay.CompState) :
    (PostDisplay.setPost v s).mounted = s.mounted := by
  unfold PostDisplay.setPost; split <;> rfl

theorem catchClause_post (e : JsValue) (s : PostDisplay.CompState) :
    (PostDisplay.catchClause e s).post = s.post := by
  unfold PostDisplay.catchClause
  split
  · exact setError_post _ _
  · rfl

theorem catchClause_mounted (e : JsValue) (s : PostDisplay.CompState) :
    (PostDisplay.catchClause e s).mounted = s.mounted := by
  unfold PostDisplay.catchClause
  split
  · exact setError_mounted _ _
  · rfl

/-- The `catch` clause ignores the `AbortError` rejection entirely. -/
theorem catchClause_abort (s : PostDisplay.CompState) :
    PostDisplay.catchClause PostDisplay.abortRejection s = s := by
  unfold PostDisplay.catchClause PostDisplay.abortRejection
  simp

/-- Settling a cancelled attempt runs only the `finally` block. -/
theorem handleSettle_abort (s : PostDisplay.CompState) :
    PostDisplay.handleSettle (.rejected PostDisplay.abortRejection) s =
      PostDisplay.setLoading false s := by
  rw [handleSettle_rejected, catchClause_abort]

theorem handleSettle_mounted (r : PostDisplay.TransportResult)
    (s : PostDisplay.CompState) :
    (PostDisplay.handleSettle r s).mounted = s.mounted := by
  cases r with
  | response ok status statusText body =>
      cases ok with
      | true =>
          cases body with
          | ok d =>
              rw [handleSettle_response_true_ok, setLoading_mounted, setPost_mounted]
          | error e =>
              rw [handleSettle_response_true_err, setLoading_mounted, catchClause_mounted]
      | false =>
          rw [handleSettle_response_false, setLoading_mounted, catchClause_mounted]
  | rejected e => rw [handleSettle_rejected, setLoading_mounted, catchClause_mounted]

theorem markLastAborted_length (l : List PostDisplay.Attempt) :
    (PostDisplay.markLastAborted l).length = l.length := by
  induction l with
  | nil => rfl
  | cons a rest ih =>
      cases rest with
      | nil => rfl
      | cons b rest2 =>
          simp only [PostDisplay.markLastAborted, List.length_cons] at ih ⊢
          omega

theorem markLastAborted_getElem (l : List PostDisplay.Attempt) (i : Nat) :
    (PostDisplay.markLastAborted l)[i]? =
      if i + 1 = l.length then
        (l[i]?).map (fun a => { a with aborted := true })
      else l[i]? := by
  induction l generalizing i with
  | nil => simp [PostDisplay.markLastAborted]
  | cons a rest ih =>
      cases rest with
      | nil =>
          cases i with
          | zero => simp [PostDisplay.markLastAborted]
          | succ j => simp [PostDisplay.markLastAborted]
      | cons b rest2 =>
          cases i with
          | zero =>
              have hcond : ¬ (0 + 1 = (a :: b :: rest2).length) := by
                simp only [List.length_cons]; omega
              rw [if_neg hcond]
              simp [PostDisplay.markLastAborted]
          | succ j =>
              have hstep : (PostDisplay.markLastAborted (a :: b :: rest2))[j + 1]? =
                  (PostDisplay.markLastAborted (b :: rest2))[j]? := by
                simp [PostDisplay.markLastAborted]
              rw [hstep, ih]
              by_cases hc : j + 1 = (b :: rest2).length
              · rw [if_pos hc, if_pos (by simp only [List.length_cons] at hc ⊢; omega)]
                simp
              · rw [if_neg hc, if_neg (by simp only [List.length_cons] at hc ⊢; omega)]
                simp

theorem setSettled_length (k : Nat) (l : List PostDisplay.Attempt) :
    (PostDisplay.setSettled k l).length = l.length := by
  unfold PostDisplay.setSettled
  cases l[k]? <;> simp

theorem setSettled_getElem (k : Nat) (l : List PostDisplay.Attempt) (i : Nat) :
    (PostDisplay.setSettled k l)[i]? =
      if i = k then (l[i]?).map (fun a => { a with settled := true })
      else l[i]? := by
  unfold PostDisplay.setSettled
  cases hk : l[k]? with
  | none =>
      by_cases hik : i = k
      · subst hik; rw [if_pos rfl, hk]; rfl
      · rw [if_neg hik]
  | some a =>
      have hlt : k < l.length := by
        by_contra hge
        rw [List.getElem?_eq_none (Nat.le_of_not_lt hge)] at hk
        cases hk
      by_cases hik : i = k
      · subst hik
        rw [if_pos rfl, hk, List.getElem?_set_self hlt]
        rfl
      · rw [if_neg hik, List.getElem?_set_ne (fun h => hik h.symm)]

/-- After a bare mount the chain invariant holds: one fresh attempt at the
mount identity's URL. -/
theorem chain_mount (b : String) (p : Int) :
    PostDisplay.ChainInv (PostDisplay.mount (some b) (some p)) 0
      (PostDisplay.requestUrl b p) := by
  refine ⟨rfl, rfl, ?_, ?_, ?_⟩
  · intro i a h
    cases i with
    | zero =>
        simp only [PostDisplay.mount, PostDisplay.startAttempt, List.nil_append,
          List.getElem?_cons_zero, Option.some.injEq] at h
        rw [← h]
    | succ j =>
        simp only [PostDisplay.mount, PostDisplay.startAttempt, List.nil_append,
          List.getElem?_cons_succ, List.getElem?_nil] at h
        cases h
  · intro i a hi _
    exact absurd hi (Nat.not_lt_zero i)
  · exact ⟨⟨PostDisplay.requestUrl b p, false, false⟩, rfl, rfl, rfl⟩

/-- A props change preserves the chain invariant: the previous newest attempt
becomes aborted and a fresh attempt at the new URL is appended. -/
theorem chain_step (sys : PostDisplay.Sys) (n : Nat) (u : String)
    (b : String) (p : Int) (h : PostDisplay.ChainInv sys n u) :
    PostDisplay.ChainInv
      (PostDisplay.step sys (PostDisplay.Event.changeProps b p)) (n + 1)
      (PostDisplay.requestUrl b p) := by
  obtain ⟨hc, hlen, hset, hstale, a0, ha0, hab0, -⟩ := h
  have hmark : ∀ i : Nat,
      (PostDisplay.markLastAborted sys.attempts)[i]? =
        if i + 1 = sys.attempts.length then
          (sys.attempts[i]?).map (fun a => { a with aborted := true })
        else sys.attempts[i]? := fun i => markLastAborted_getElem sys.attempts i
  have hstepeq : PostDisplay.step sys (PostDisplay.Event.changeProps b p) =
      { comp := PostDisplay.setError none (PostDisplay.setLoading true sys.comp),
        attempts := PostDisplay.markLastAborted sys.attempts ++
          [⟨PostDisplay.requestUrl b p, false, false⟩] } := rfl
  rw [hstepeq]
  refine ⟨?_, ?_, ?_, ?_, ?_⟩
  · rw [hc]; rfl
  · simp only [List.length_append, markLastAborted_length, hlen, List.length_cons,
      List.length_nil]
  · intro i a hia
    by_cases hi : i < sys.attempts.length
    · rw [List.getElem?_append_left
        (by rw [markLastAborted_length]; exact hi)] at hia
      rw [hmark i] at hia
      by_cases hcond : i + 1 = sys.attempts.length
      · rw [if_pos hcond] at hia
        cases hx : sys.attempts[i]? with
        | none => rw [hx] at hia; cases hia
        | some a2 =>
            rw [hx] at hia
            simp only [Option.map_some'] at hia
            injection hia with h2
            rw [← h2]
            exact hset i a2 hx
      · rw [if_neg hcond] at hia
        exact hset i a hia
    · have hile : sys.attempts.length ≤ i := Nat.le_of_not_lt hi
      rw [List.getElem?_append_right
        (by rw [markLastAborted_length]; exact hile)] at hia
      rw [markLastAborted_length] at hia
      cases hd : i - sys.attempts.length with
      | zero =>
          rw [hd, List.getElem?_cons_zero, Option.some.injEq] at hia
          rw [← hia]
      | succ j =>
          rw [hd, List.getElem?_cons_succ, List.getElem?_nil] at hia
          cases hia
  · intro i a hi hia
    have hilt : i < sys.attempts.length := by omega
    rw [List.getElem?_append_left
      (by rw [markLastAborted_length]; exact hilt)] at hia
    rw [hmark i] at hia
    by_cases hcond : i + 1 = sys.attempts.length
    · rw [if_pos hcond] at hia
      cases hx : sys.attempts[i]? with
      | none => rw [hx] at hia; cases hia
      | some a2 =>
          rw [hx] at hia
          simp only [Option.map_some'] at hia
          injection hia with h2
          rw [← h2]
    · rw [if_neg hcond] at hia
      have hin : i < n := by omega
      exact hstale i a hin hia
  · refine ⟨⟨PostDisplay.requestUrl b p, false, false⟩, ?_, rfl, rfl⟩
    have hidx : n + 1 = (PostDisplay.markLastAborted sys.attempts).length := by
      rw [markLastAborted_length, hlen]
    rw [hidx]
    exact List.getElem?_concat_length _ _

/-- After a mount and any chain of props changes, the chain invariant holds
at the most recent identity. -/
theorem chain_fold (b : String) (p : Int) (cs : List (String × Int)) :
    PostDisplay.ChainInv
      (List.foldl PostDisplay.step (PostDisplay.mount (some b) (some p))
        (cs.map (fun c => PostDisplay.Event.changeProps c.1 c.2)))
      cs.length
      (PostDisplay.requestUrl (PostDisplay.lastIdentity b p cs).1
        (PostDisplay.lastIdentity b p cs).2) := by
  induction cs using List.reverseRecOn with
  | nil => exact chain_mount b p
  | append_singleton cs c ih =>
      rw [List.map_append, List.foldl_append]
      have h2 := chain_step _ cs.length _ c.1 c.2 ih
      have hlen : (cs ++ [c]).length = cs.length + 1 := by simp
      have hlast : PostDisplay.lastIdentity b p (cs ++ [c]) = c := by
        simp [PostDisplay.lastIdentity, List.getLast?_concat]
      rw [hlen, hlast]
      simpa using h2

/-- Settlement of an unknown attempt index is a no-op. -/
theorem step_settle_of_none (sys : PostDisplay.Sys) (k : Nat)
    (r : PostDisplay.TransportResult) (hk : sys.attempts[k]? = none) :
    PostDisplay.step sys (PostDisplay.Event.settle k r) = sys := by
  simp [PostDisplay.step, hk]

/-- Settlement of an already-settled attempt is a no-op. -/
theorem step_settle_of_settled (sys : PostDisplay.Sys) (k : Nat)
    (r : PostDisplay.TransportResult) (a : PostDisplay.Attempt)
    (hk : sys.attempts[k]? = some a) (hs : a.settled = true) :
    PostDisplay.step sys (PostDisplay.Event.settle k r) = sys := by
  simp [PostDisplay.step, hk, hs]

/-- Settlement of a pending attempt: the handler runs on the delivered
result (the `AbortError` rejection if the attempt was cancelled) and the
attempt is marked settled. -/
theorem step_settle_eq (sys : PostDisplay.Sys) (k : Nat)
    (r : PostDisplay.TransportResult) (a : PostDisplay.Attempt)
    (hk : sys.attempts[k]? = some a) (hs : a.settled = false) :
    PostDisplay.step sys (PostDisplay.Event.settle k r) =
      { comp := PostDisplay.handleSettle
          (if a.aborted then .rejected PostDisplay.abortRejection else r)
          sys.comp,
        attempts := PostDisplay.setSettled k sys.attempts } := by
  simp [PostDisplay.step, hk, hs]

/-- On a state whose `post` and `error` cells are untouched and which is
mounted, the handler writes exactly the outcome cells of a fresh lifecycle. -/
theorem handleSettle_fresh (r : PostDisplay.TransportResult)
    (c : PostDisplay.CompState) (hp : c.post = none) (he : c.error = none)
    (hm : c.mounted = true) :
    (PostDisplay.handleSettle r c).post = PostDisplay.outcomePost r ∧
    (PostDisplay.handleSettle r c).error = PostDisplay.outcomeError r := by
  unfold PostDisplay.outcomePost PostDisplay.outcomeError
  cases r with
  | response ok status statusText body =>
      cases ok with
      | true =>
          cases body with
          | ok d =>
              rw [handleSettle_response_true_ok, handleSettle_response_true_ok]
              constructor
              · rw [setLoading_post, setLoading_post]
                simp [PostDisplay.setPost, hm, PostDisplay.initComp]
              · rw [setLoading_error, setLoading_error, setPost_error,
                  setPost_error, he]
                rfl
          | error e =>
              rw [handleSettle_response_true_err, handleSettle_response_true_err]
              constructor
              · rw [setLoading_post, setLoading_post, catchClause_post,
                  catchClause_post, hp]
                rfl
              · rw [setLoading_error, setLoading_error]
                unfold PostDisplay.catchClause
                by_cases hc : (e.isError && e.name != "AbortError") = true
                · rw [if_pos hc, if_pos hc]
                  simp [PostDisplay.setError, hm, PostDisplay.initComp]
                · rw [if_neg hc, if_neg hc, he]
                  rfl
      | false =>
          rw [handleSettle_response_false, handleSettle_response_false]
          constructor
          · rw [setLoading_post, setLoading_post, catchClause_post,
              catchClause_post, hp]
            rfl
          · rw [setLoading_error, setLoading_error]
            unfold PostDisplay.catchClause
            have hc : (true && (("Error" : String) != "AbortError")) = true := by
              decide
            rw [if_pos hc, if_pos hc]
            simp [PostDisplay.setError, hm, PostDisplay.initComp]
  | rejected e =>
      rw [handleSettle_rejected, handleSettle_rejected]
      constructor
      · rw [setLoading_post, setLoading_post, catchClause_post,
          catchClause_post, hp]
        rfl
      · rw [setLoading_error, setLoading_error]
        unfold PostDisplay.catchClause
        by_cases hc : (e.isError && e.name != "AbortError") = true
        · rw [if_pos hc, if_pos hc]
          simp [PostDisplay.setError, hm, PostDisplay.initComp]
        · rw [if_neg hc, if_neg hc, he]
          rfl

/-- The chain invariant entails the pending race invariant. -/
theorem race_pending_of_chain (sys : PostDisplay.Sys) (n : Nat) (u : String)
    (h : PostDisplay.ChainInv sys n u) : PostDisplay.RacePending sys n := by
  obtain ⟨hc, hlen, hset, hstale, a, ha, hab, -⟩ := h
  refine ⟨?_, ?_, ?_, hlen, hstale, a, ha, hab, hset n a ha⟩
  · rw [hc]; rfl
  · rw [hc]; rfl
  · rw [hc]; rfl

/-- Once the live attempt has settled, any further settlement event leaves
`post` and `error` unchanged and preserves the invariant. -/
theorem race_done_step (sys : PostDisplay.Sys) (n : Nat)
    (h : PostDisplay.RaceDone sys n) (k : Nat)
    (r : PostDisplay.TransportResult) :
    (PostDisplay.step sys (PostDisplay.Event.settle k r)).comp.post = sys.comp.post ∧
    (PostDisplay.step sys (PostDisplay.Event.settle k r)).comp.error = sys.comp.error ∧
    PostDisplay.RaceDone (PostDisplay.step sys (PostDisplay.Event.settle k r)) n := by
  obtain ⟨hm, hlen, hstale, aN, haN, hsetN⟩ := h
  cases hk : sys.attempts[k]? with
  | none =>
      rw [step_settle_of_none sys k r hk]
      exact ⟨rfl, rfl, hm, hlen, hstale, aN, haN, hsetN⟩
  | some a =>
      by_cases hs : a.settled = true
      · rw [step_settle_of_settled sys k r a hk hs]
        exact ⟨rfl, rfl, hm, hlen, hstale, aN, haN, hsetN⟩
      · have hsf : a.settled = false := by
          cases hx : a.settled
          · rfl
          · exact absurd hx hs
        have hkn : k ≠ n := by
          intro hkn
          subst hkn
          rw [hk] at haN
          injection haN with h2
          rw [h2] at hsf
          rw [hsf] at hsetN
          cases hsetN
        have hklt : k < sys.attempts.length := by
          by_contra hge
          rw [List.getElem?_eq_none (Nat.le_of_not_lt hge)] at hk
          cases hk
        have hkltn : k < n := by omega
        have hab : a.aborted = true := hstale k a hkltn hk
        rw [step_settle_eq sys k r a hk hsf]
        have hdel : (if a.aborted then
            PostDisplay.TransportResult.rejected PostDisplay.abortRejection
            else r) = PostDisplay.TransportResult.rejected PostDisplay.abortRejection := by
          rw [hab]
          rfl
        rw [hdel, handleSettle_abort]
        refine ⟨setLoading_post _ _, setLoading_error _ _, ?_, ?_, ?_, aN, ?_, hsetN⟩
        · rw [setLoading_mounted]; exact hm
        · rw [setSettled_length]; exact hlen
        · intro i a2 hi hia
          rw [setSettled_getElem] at hia
          by_cases hik : i = k
          · rw [if_pos hik] at hia
            cases hx : sys.attempts[i]? with
            | none => rw [hx] at hia; cases hia
            | some a3 =>
                rw [hx] at hia
                simp only [Option.map_some'] at hia
                injection hia with h2
                rw [← h2]
                exact hstale i a3 hi hx
          · rw [if_neg hik] at hia
            exact hstale i a2 hi hia
        · rw [setSettled_getElem, if_neg (fun hgg => hkn hgg.symm)]
          exact haN

/-- Settling the live pending attempt `n` writes exactly its outcome and
moves the system into the settled invariant. -/
theorem race_pending_step_live (sys : PostDisplay.Sys) (n : Nat)
    (r : PostDisplay.TransportResult) (h : PostDisplay.RacePending sys n) :
    (PostDisplay.step sys (PostDisplay.Event.settle n r)).comp.post =
      PostDisplay.outcomePost r ∧
    (PostDisplay.step sys (PostDisplay.Event.settle n r)).comp.error =
      PostDisplay.outcomeError r ∧
    PostDisplay.RaceDone (PostDisplay.step sys (PostDisplay.Event.settle n r)) n := by
  obtain ⟨hm, hp, he, hlen, hstale, aN, haN, habN, hsetN⟩ := h
  rw [step_settle_eq sys n r aN haN hsetN]
  have hdel : (if aN.aborted then
      PostDisplay.TransportResult.rejected PostDisplay.abortRejection
      else r) = r := by
    rw [habN]
    rfl
  rw [hdel]
  obtain ⟨hpost, herr⟩ := handleSettle_fresh r sys.comp hp he hm
  refine ⟨hpost, herr, ?_, ?_, ?_, ?_⟩
  · rw [handleSettle_mounted]; exact hm
  · rw [setSettled_length]; exact hlen
  · intro i a2 hi hia
    rw [setSettled_getElem, if_neg (by omega : ¬ i = n)] at hia
    exact hstale i a2 hi hia
  · refine ⟨{ aN with settled := true }, ?_, rfl⟩
    rw [setSettled_getElem, if_pos rfl, haN]
    rfl

/-- Settling any attempt other than the live one preserves the pending
invariant (in particular `post` and `error` stay untouched). -/
theorem race_pending_step_stale (sys : PostDisplay.Sys) (n k : Nat)
    (r : PostDisplay.TransportResult) (h : PostDisplay.RacePending sys n)
    (hkn : k ≠ n) :
    PostDisplay.RacePending (PostDisplay.step sys (PostDisplay.Event.settle k r)) n := by
  obtain ⟨hm, hp, he, hlen, hstale, aN, haN, habN, hsetN⟩ := h
  cases hk : sys.attempts[k]? with
  | none =>
      rw [step_settle_of_none sys k r hk]
      exact ⟨hm, hp, he, hlen, hstale, aN, haN, habN, hsetN⟩
  | some a =>
      by_cases hs : a.settled = true
      · rw [step_settle_of_settled sys k r a hk hs]
        exact ⟨hm, hp, he, hlen, hstale, aN, haN, habN, hsetN⟩
      · have hsf : a.settled = false := by
          cases hx : a.settled
          · rfl
          · exact absurd hx hs
        have hklt : k < sys.attempts.length := by
          by_contra hge
          rw [List.getElem?_eq_none (Nat.le_of_not_lt hge)] at hk
          cases hk
        have hkltn : k < n := by omega
        have hab : a.aborted = true := hstale k a hkltn hk
        rw [step_settle_eq sys k r a hk hsf]
        have hdel : (if a.aborted then
            PostDisplay.TransportResult.rejected PostDisplay.abortRejection
            else r) = PostDisplay.TransportResult.rejected PostDisplay.abortRejection := by
          rw [hab]
          rfl
        rw [hdel, handleSettle_abort]
        refine ⟨?_, ?_, ?_, ?_, ?_, aN, ?_, habN, hsetN⟩
        · rw [setLoading_mounted]; exact hm
        · rw [setLoading_post]; exact hp
        · rw [setLoading_error]; exact he
        · rw [setSettled_length]; exact hlen
        · intro i a2 hi hia
          rw [setSettled_getElem] at hia
          by_cases hik : i = k
          · rw [if_pos hik] at hia
            cases hx : sys.attempts[i]? with
            | none => rw [hx] at hia; cases hia
            | some a3 =>
                rw [hx] at hia
                simp only [Option.map_some'] at hia
                injection hia with h2
                rw [← h2]
                exact hstale i a3 hi hx
          · rw [if_neg hik] at hia
            exact hstale i a2 hi hia
        · rw [setSettled_getElem, if_neg (fun hgg => hkn hgg.symm)]
          exact haN

/-- After the live attempt has settled, the whole remaining settlement phase
leaves `post` and `error` unchanged. -/
theorem race_done_fold (settles : List (Nat × PostDisplay.TransportResult))
    (sys : PostDisplay.Sys) (n : Nat) (h : PostDisplay.RaceDone sys n) :
    (List.foldl PostDisplay.step sys
        (settles.map (fun s => PostDisplay.Event.settle s.1 s.2))).comp.post =
      sys.comp.post ∧
    (List.foldl PostDisplay.step sys
        (settles.map (fun s => PostDisplay.Event.settle s.1 s.2))).comp.error =
      sys.comp.error := by
  induction settles generalizing sys with
  | nil => exact ⟨rfl, rfl⟩
  | cons s rest ih =>
      simp only [List.map_cons, List.foldl_cons]
      obtain ⟨hp, he, hd⟩ := race_done_step sys n h s.1 s.2
      obtain ⟨hp2, he2⟩ := ih (PostDisplay.step sys (PostDisplay.Event.settle s.1 s.2)) hd
      exact ⟨hp2.trans hp, he2.trans he⟩

/-- The settlement phase as a whole: starting from the pending invariant, the
final `post` and `error` cells are exactly the outcome of the first
settlement of the live attempt `n` (and untouched if it never settles). -/
theorem race_pending_fold (settles : List (Nat × PostDisplay.TransportResult))
    (sys : PostDisplay.Sys) (n : Nat) (h : PostDisplay.RacePending sys n) :
    ((List.foldl PostDisplay.step sys
        (settles.map (fun s => PostDisplay.Event.settle s.1 s.2))).comp.post,
     (List.foldl PostDisplay.step sys
        (settles.map (fun s => PostDisplay.Event.settle s.1 s.2))).comp.error) =
      (match PostDisplay.firstSettleOf n settles with
       | none => (none, none)
       | some r => (PostDisplay.outcomePost r, PostDisplay.outcomeError r)) := by
  induction settles generalizing sys with
  | nil =>
      obtain ⟨-, hp, he, -⟩ := h
      simp only [List.map_nil, List.foldl_nil]
      rw [hp, he]
      rfl
  | cons s rest ih =>
      obtain ⟨j, r⟩ := s
      simp only [List.map_cons, List.foldl_cons, PostDisplay.firstSettleOf]
      by_cases hjn : j = n
      · subst hjn
        rw [if_pos rfl]
        obtain ⟨hp, he, hdone⟩ := race_pending_step_live sys j r h
        obtain ⟨hp2, he2⟩ := race_done_fold rest
          (PostDisplay.step sys (PostDisplay.Event.settle j r)) j hdone
        rw [hp2, he2, hp, he]
      · rw [if_neg hjn]
        exact ih (PostDisplay.step sys (PostDisplay.Event.settle j r))
          (race_pending_step_stale sys n j r h hjn)

/-- One settlement event never changes any attempt's URL. -/
theorem settle_preserves_url (sys : PostDisplay.Sys) (k : Nat)
    (r : PostDisplay.TransportResult) (i : Nat) :
    ((PostDisplay.step sys (PostDisplay.Event.settle k r)).attempts[i]?).map
        PostDisplay.Attempt.url =
      (sys.attempts[i]?).map PostDisplay.Attempt.url := by
  cases hk : sys.attempts[k]? with
  | none => rw [step_settle_of_none sys k r hk]
  | some a =>
      by_cases hs : a.settled = true
      · rw [step_settle_of_settled sys k r a hk hs]
      · have hsf : a.settled = false := by
          cases hx : a.settled
          · rfl
          · exact absurd hx hs
        rw [step_settle_eq sys k r a hk hsf]
        show ((PostDisplay.setSettled k sys.attempts)[i]?).map _ = _
        rw [setSettled_getElem]
        by_cases hik : i = k
        · rw [if_pos hik]
          subst hik
          rw [hk]
          rfl
        · rw [if_neg hik]

/-- The whole settlement phase never changes any attempt's URL. -/
theorem settles_preserve_url (settles : List (Nat × PostDisplay.TransportResult))
    (sys : PostDisplay.Sys) (i : Nat) :
    ((List.foldl PostDisplay.step sys
        (settles.map (fun s => PostDisplay.Event.settle s.1 s.2))).attempts[i]?).map
        PostDisplay.Attempt.url =
      (sys.attempts[i]?).map PostDisplay.Attempt.url := by
  induction settles generalizing sys with
  | nil => rfl
  | cons s rest ih =>
      simp only [List.map_cons, List.foldl_cons]
      rw [ih (PostDisplay.step sys (PostDisplay.Event.settle s.1 s.2)),
        settle_preserves_url]

/-- C2 counterexample: mount at `("http://test.api", 1)`, then two identity
changes (to postId 2 and then 3) before anything settles. Settling the two
superseded attempts IS applied to the component's state even though neither
carries the most recent identity: the state changes from
`loading = true` (loading marker rendered) to `loading = false` (`no-data`
marker rendered) while the live attempt for postId 3 is still pending — so it
is not true that exactly one Transport call's result — the most recent
identity's — is ever applied to state. -/
theorem c2_counterexample :
    (PostDisplay.run (some "http://test.api") (some 1)
        [PostDisplay.Event.changeProps "http://test.api" 2,
         PostDisplay.Event.changeProps "http://test.api" 3]).comp.loading = true ∧
    PostDisplay.render (PostDisplay.run (some "http://test.api") (some 1)
        [PostDisplay.Event.changeProps "http://test.api" 2,
         PostDisplay.Event.changeProps "http://test.api" 3]).comp =
      PostDisplay.View.loadingView ∧
    (PostDisplay.run (some "http://test.api") (some 1)
        [PostDisplay.Event.changeProps "http://test.api" 2,
         PostDisplay.Event.changeProps "http://test.api" 3,
         PostDisplay.Event.settle 0
           (PostDisplay.TransportResult.rejected PostDisplay.abortRejection),
         PostDisplay.Event.settle 1
           (PostDisplay.TransportResult.rejected PostDisplay.abortRejection)]).comp.loading
      = false ∧
    PostDisplay.render (PostDisplay.run (some "http://test.api") (some 1)
        [PostDisplay.Event.changeProps "http://test.api" 2,
         PostDisplay.Event.changeProps "http://test.api" 3,
         PostDisplay.Event.settle 0
           (PostDisplay.TransportResult.rejected PostDisplay.abortRejection),
         PostDisplay.Event.settle 1
           (PostDisplay.TransportResult.rejected PostDisplay.abortRejection)]).comp =
      PostDisplay.View.emptyView ∧
    (PostDisplay.run (some "http://test.api") (some 1)
        [PostDisplay.Event.changeProps "http://test.api" 2,
         PostDisplay.Event.changeProps "http://test.api" 3,
         PostDisplay.Event.settle 0
           (PostDisplay.TransportResult.rejected PostDisplay.abortRejection),
         PostDisplay.Event.settle 1
           (PostDisplay.TransportResult.rejected PostDisplay.abortRejection)]).attempts[2]?
      = some ⟨"http://test.api/posts/3", false, false⟩ := by
  decide

/-- C2 amended: for any mount, any chain of identity changes issued before
any settlement, and any order of settlements afterwards, the `post` and
`error` outcome cells are written by exactly one Transport call — the first
settlement of the attempt carrying the most recent identity — and equal
that call's outcome (they stay untouched if it never settles); superseded
attempts' settlements never write `post` or `error` (though each also
clears the `loading` flag as its `finally` cleanup). The attempt at the
live index indeed carries the URL of the most recent identity. -/
theorem c2_amended_latest_outcome (b : String) (p : Int)
    (cs : List (String × Int))
    (settles : List (Nat × PostDisplay.TransportResult)) :
    ((PostDisplay.run (some b) (some p)
        (cs.map (fun c => PostDisplay.Event.changeProps c.1 c.2) ++
         settles.map (fun s => PostDisplay.Event.settle s.1 s.2))).comp.post,
     (PostDisplay.run (some b) (some p)
        (cs.map (fun c => PostDisplay.Event.changeProps c.1 c.2) ++
         settles.map (fun s => PostDisplay.Event.settle s.1 s.2))).comp.error) =
      (match PostDisplay.firstSettleOf cs.length settles with
       | none => (none, none)
       | some r => (PostDisplay.outcomePost r, PostDisplay.outcomeError r)) ∧
    ∃ a : PostDisplay.Attempt,
      (PostDisplay.run (some b) (some p)
        (cs.map (fun c => PostDisplay.Event.changeProps c.1 c.2) ++
         settles.map (fun s => PostDisplay.Event.settle s.1 s.2))).attempts[cs.length]?
        = some a ∧
      a.url = PostDisplay.requestUrl (PostDisplay.lastIdentity b p cs).1
        (PostDisplay.lastIdentity b p cs).2 := by
  have hchain := chain_fold b p cs
  have hpend := race_pending_of_chain _ _ _ hchain
  have hfold := race_pending_fold settles _ cs.length hpend
  have hurl := settles_preserve_url settles
    (List.foldl PostDisplay.step (PostDisplay.mount (some b) (some p))
      (cs.map (fun c => PostDisplay.Event.changeProps c.1 c.2))) cs.length
  obtain ⟨-, -, -, -, aL, haL, -, haurl⟩ := hchain
  constructor
  · unfold PostDisplay.run
    rw [List.foldl_append]
    exact hfold
  · unfold PostDisplay.run
    rw [List.foldl_append]
    rw [haL] at hurl
    cases hx : (List.foldl PostDisplay.step
        (List.foldl PostDisplay.step (PostDisplay.mount (some b) (some p))
          (cs.map (fun c => PostDisplay.Event.changeProps c.1 c.2)))
        (settles.map (fun s => PostDisplay.Event.settle s.1 s.2))).attempts[cs.length]? with
    | none =>
        rw [hx] at hurl
        cases hurl
    | some a2 =>
        rw [hx] at hurl
        simp only [Option.map_some'] at hurl
        injection hurl with h2
        exact ⟨a2, rfl, by rw [h2, haurl]⟩
